import Mathlib

/-!
Shallow embedding of the certificate-chain submission pipeline in
`src/main.go` (package `main`, first document of the file; the later
documents are near-duplicate drafts of the same pipeline).

The backing store (gorp/MySQL), the HTTP client and `encoding/json`'s
`Unmarshal` are external collaborators; they are modelled as explicit
function parameters (oracles).  Byte strings (`[]byte`) are lists of
naturals, `int64` values are `Int` (the program's values stay far from
the 2^63 overflow boundary, so no wrap-around modelling is needed).
-/

namespace DsoToCt

/-- Go `[]byte`: a list of byte values. -/
abbrev Bytes := List Nat

/-- The `chain` struct of src/main.go lines 43-47: fingerprint (`chain_fp`),
sequence id (`chain_id`, Go `int64`), and the assembled certificates. -/
structure chain where
  fingerprint : Bytes
  id : Int
  certs : List Bytes
deriving DecidableEq

/-- The `report` struct of src/main.go lines 69-72: a certificate fingerprint
together with the `is_end_entity` flag. -/
structure report where
  certFP : String
  endEntity : Bool
deriving DecidableEq

/-- Result of a gorp `Select` call: the special `sql.ErrNoRows` error, any
other error, or the selected rows. -/
inductive DbResult (α : Type) where
  | noRows
  | err (msg : String)
  | ok (rows : α)
deriving DecidableEq

/-- Page size of the pagination loop: the `maxChains` constant
(src/main.go line 24). -/
def maxChains : Nat := 1000

/-- The pagination loop of `getChains` (src/main.go lines 49-67), with the
store's `SELECT ... LIMIT ? OFFSET ?` query modelled by the oracle `sel`
(arguments: limit, offset).  Explicit fuel makes the loop total; the fuel-out
marker never appears in a run that the claims talk about.  The result is the
trace of one run: the offsets at which a page was requested, the batches sent
to `chainCh`, and the loop's outcome (`.ok ()` for `break`/normal return,
`.error` for the `return err` path). -/
def getChainsAux (sel : Nat → Nat → DbResult (List chain)) :
    Nat → Nat → List Nat × List (List chain) × Except String Unit
  | 0, _ => ([], [], .error "out of fuel")
  | fuel + 1, offset =>
    match sel maxChains offset with
    | .noRows => ([offset], [], .ok ())
    | .err m => ([offset], [], .error m)
    | .ok chains =>
      if chains.length < maxChains then
        ([offset], [chains], .ok ())
      else
        let rest := getChainsAux sel fuel (offset + chains.length)
        (offset :: rest.1, chains :: rest.2.1, rest.2.2)

/-- The per-report loop of `getCerts` (src/main.go lines 82-93): for each
report, fetch the raw certificate via the `selectRawCert` oracle `selRaw`;
an end-entity report overwrites `leaf`, any other report is appended to
`others`.  A store error aborts the loop (`return err`). -/
def getCertsLoop (selRaw : String → Except String Bytes) :
    List report → Option Bytes → List Bytes →
    Except String (Option Bytes × List Bytes)
  | [], leaf, others => .ok (leaf, others)
  | r :: rs, leaf, others =>
    match selRaw r.certFP with
    | .error e => .error e
    | .ok raw =>
      if r.endEntity then getCertsLoop selRaw rs (some raw) others
      else getCertsLoop selRaw rs leaf (others ++ [raw])

/-- `getCerts` (src/main.go lines 74-99): fetch the reports for the chain's
fingerprint via the `selectReports` oracle `selReports`, run the per-report
loop, fail with `"chain without end-entity"` when no leaf was seen (Go:
`leaf == nil`), otherwise assemble `leaf :: others` into the chain. -/
def getCerts (selReports : Bytes → Except String (List report))
    (selRaw : String → Except String Bytes) (partialChain : chain) :
    Except String chain :=
  match selReports partialChain.fingerprint with
  | .error e => .error e
  | .ok reports =>
    match getCertsLoop selRaw reports none [] with
    | .error e => .error e
    | .ok (none, _) => .error "chain without end-entity"
    | .ok (some leaf, others) =>
      .ok { partialChain with certs := leaf :: others }

/-- The inner assembly loop of `main` (src/main.go lines 253-262) over one
batch: call `getCerts` for each partial chain; on any error `continue`
(the `panic(err)` is commented out — "skip broken chains"), otherwise the
assembled chain is pushed onto the `submissions` channel.  The result is the
list of chains pushed, in order. -/
def assembleBatch (selReports : Bytes → Except String (List report))
    (selRaw : String → Except String Bytes) (chains : List chain) :
    List chain :=
  chains.filterMap (fun pc => (getCerts selReports selRaw pc).toOption)

/-- When every raw-certificate lookup succeeds (oracle `fun fp => .ok (raw fp)`),
the report loop returns the last-seen end-entity's bytes as the leaf and
appends the non-end-entity bytes to the accumulator in report order. -/
theorem getCertsLoop_total_spec (raw : String → Bytes) (rs : List report)
    (leaf : Option Bytes) (acc : List Bytes) :
    getCertsLoop (fun fp => .ok (raw fp)) rs leaf acc =
      .ok ((rs.filter (fun x => x.endEntity)).foldl
             (fun _ x => some (raw x.certFP)) leaf,
           acc ++ (rs.filter (fun x => !x.endEntity)).map
             (fun x => raw x.certFP)) := by
  induction rs generalizing leaf acc with
  | nil => simp [getCertsLoop]
  | cons r rs ih =>
    by_cases h : r.endEntity
    · simp [getCertsLoop, h, ih]
    · simp [getCertsLoop, h, ih]

/-- An assembly error makes the loop skip the chain: nothing is pushed for it
and the batch's later chains are processed unchanged. -/
theorem assembleBatch_error_skip (selReports : Bytes → Except String (List report))
    (selRaw : String → Except String Bytes) (pc : chain) (e : String)
    (pre post : List chain) (h : getCerts selReports selRaw pc = .error e) :
    assembleBatch selReports selRaw (pre ++ pc :: post) =
      assembleBatch selReports selRaw pre ++
        assembleBatch selReports selRaw post := by
  simp [assembleBatch, List.filterMap_append, h, Except.toOption]

/-- Concrete store for the C3 scenario: the reports lookup fails with a
store-level error for fingerprint `[1]` and otherwise returns a single
end-entity report. -/
def storeErrSel : Bytes → Except String (List report) := fun fp =>
  if fp = [1] then .error "store: query failed" else .ok [⟨"L", true⟩]

/-- Concrete raw-certificate store for the C3 scenario. -/
def storeErrRaw : String → Except String Bytes := fun _ => .ok [9]

/-- C3 counterexample: a store-level error while fetching a chain's records is
NOT fatal.  In the concrete run the reports query for chain `[1]` fails with a
store error, yet the assembly loop skips that chain and goes on to assemble
and push the next chain `[2]` — the pipeline is not aborted. -/
theorem C3_store_error_not_fatal_cex :
    getCerts storeErrSel storeErrRaw ⟨[1], 1, []⟩ = .error "store: query failed" ∧
    assembleBatch storeErrSel storeErrRaw [⟨[1], 1, []⟩, ⟨[2], 2, []⟩] =
      [⟨[2], 2, [[9]]⟩] := by
  exact ⟨rfl, rfl⟩

/-- C3 (amended): every error returned by `getCerts` — store-level errors
included — makes the assembly loop skip that chain and continue with the
remaining identities; nothing aborts (the `panic(err)` in src/main.go line 257
is commented out). -/
theorem C3_assembly_skips_any_error
    (selReports : Bytes → Except String (List report))
    (selRaw : String → Except String Bytes) (pc : chain) (e : String)
    (pre post : List chain) (h : getCerts selReports selRaw pc = .error e) :
    assembleBatch selReports selRaw (pre ++ pc :: post) =
      assembleBatch selReports selRaw pre ++
        assembleBatch selReports selRaw post :=
  assembleBatch_error_skip selReports selRaw pc e pre post h

/-- C3 witness: the amended statement at the concrete erroring store. -/
theorem C3_assembly_skips_any_error_witness :
    assembleBatch storeErrSel storeErrRaw ([] ++ ⟨[1], 1, []⟩ :: [⟨[2], 2, []⟩]) =
      assembleBatch storeErrSel storeErrRaw [] ++
        assembleBatch storeErrSel storeErrRaw [⟨[2], 2, []⟩] :=
  C3_assembly_skips_any_error storeErrSel storeErrRaw ⟨[1], 1, []⟩
    "store: query failed" [] [⟨[2], 2, []⟩] rfl

/-- C4: when the fetched report set contains exactly one end-entity report and
every raw-certificate lookup succeeds, the assembled chain's certificates are
that report's raw bytes first, followed by the raw bytes of the remaining
(non-end-entity) reports in the order they were fetched. -/
theorem C4_single_leaf_first
    (selReports : Bytes → Except String (List report)) (raw : String → Bytes)
    (pc : chain) (reports : List report) (r : report)
    (hsel : selReports pc.fingerprint = .ok reports)
    (hone : reports.filter (fun x => x.endEntity) = [r]) :
    getCerts selReports (fun fp => .ok (raw fp)) pc =
      .ok { pc with certs := raw r.certFP ::
        (reports.filter (fun x => !x.endEntity)).map (fun x => raw x.certFP) } := by
  have hloop := getCertsLoop_total_spec raw reports none []
  rw [hone] at hloop
  simp only [getCerts, hsel, hloop, List.foldl_cons, List.foldl_nil, List.nil_append]

/-- Concrete reports store for the C4 witness: one end-entity report "A"
between two non-end-entity reports "B" and "C". -/
def oneLeafSel : Bytes → Except String (List report) := fun _ =>
  .ok [⟨"B", false⟩, ⟨"A", true⟩, ⟨"C", false⟩]

/-- Concrete raw-certificate contents for the C4 witness. -/
def oneLeafRaw : String → Bytes := fun fp =>
  if fp = "A" then [1] else if fp = "B" then [2] else [3]

/-- C4 witness: the leaf "A" comes first, then "B" and "C" in fetch order. -/
theorem C4_single_leaf_first_witness :
    getCerts oneLeafSel (fun fp => .ok (oneLeafRaw fp)) ⟨[9], 7, []⟩ =
      .ok ⟨[9], 7, [[1], [2], [3]]⟩ :=
  C4_single_leaf_first oneLeafSel oneLeafRaw ⟨[9], 7, []⟩
    [⟨"B", false⟩, ⟨"A", true⟩, ⟨"C", false⟩] ⟨"A", true⟩ rfl (by decide)

/-- C6: when the fetched report set contains no end-entity report (and the raw
lookups succeed), `getCerts` fails with the validation error
`"chain without end-entity"`, the chain is not pushed onto the submission
queue, and the assembly loop continues with the remaining identities. -/
theorem C6_zero_leaf_validation_skip
    (selReports : Bytes → Except String (List report)) (raw : String → Bytes)
    (pc : chain) (reports : List report)
    (hsel : selReports pc.fingerprint = .ok reports)
    (hzero : reports.filter (fun x => x.endEntity) = [])
    (pre post : List chain) :
    getCerts selReports (fun fp => .ok (raw fp)) pc =
      .error "chain without end-entity" ∧
    assembleBatch selReports (fun fp => .ok (raw fp)) (pre ++ pc :: post) =
      assembleBatch selReports (fun fp => .ok (raw fp)) pre ++
        assembleBatch selReports (fun fp => .ok (raw fp)) post := by
  have herr : getCerts selReports (fun fp => .ok (raw fp)) pc =
      .error "chain without end-entity" := by
    have hloop := getCertsLoop_total_spec raw reports none []
    rw [hzero] at hloop
    simp only [getCerts, hsel, hloop, List.foldl_nil]
  exact ⟨herr, assembleBatch_error_skip _ _ pc _ pre post herr⟩

/-- Concrete reports store for the C6 witness: no end-entity report. -/
def noLeafSel : Bytes → Except String (List report) := fun _ =>
  .ok [⟨"B", false⟩, ⟨"C", false⟩]

/-- C6 witness: the leafless chain `[4]` yields the validation error and is
dropped while the chain `[5]` after it is still assembled. -/
theorem C6_zero_leaf_validation_skip_witness :
    getCerts noLeafSel (fun fp => .ok (oneLeafRaw fp)) ⟨[4], 4, []⟩ =
      .error "chain without end-entity" ∧
    assembleBatch noLeafSel (fun fp => .ok (oneLeafRaw fp))
        ([] ++ ⟨[4], 4, []⟩ :: [⟨[5], 5, []⟩]) =
      assembleBatch noLeafSel (fun fp => .ok (oneLeafRaw fp)) [] ++
        assembleBatch noLeafSel (fun fp => .ok (oneLeafRaw fp)) [⟨[5], 5, []⟩] :=
  C6_zero_leaf_validation_skip noLeafSel oneLeafRaw ⟨[4], 4, []⟩
    [⟨"B", false⟩, ⟨"C", false⟩] rfl (by decide) [] [⟨[5], 5, []⟩]

/-- C5: against a store that answers the page request at offset 0 with 1000
rows and the page request at offset 1000 with 400 rows, the pagination loop
issues exactly the two page requests at offsets 0 and 1000 (none after the
short page), sends exactly those two batches, finishes normally, and the
emitted batches hold 1400 identities in total.  The fuel offset `fuel + 2`
shows the trace is independent of any additional fuel. -/
theorem C5_two_pages_trace
    (sel : Nat → Nat → DbResult (List chain)) (p0 p1 : List chain) (fuel : Nat)
    (h0 : sel maxChains 0 = .ok p0) (hl0 : p0.length = 1000)
    (h1 : sel maxChains 1000 = .ok p1) (hl1 : p1.length = 400) :
    getChainsAux sel (fuel + 2) 0 = ([0, 1000], [p0, p1], .ok ()) ∧
    ((getChainsAux sel (fuel + 2) 0).2.1.map List.length).sum = 1400 := by
  have htrace : getChainsAux sel (fuel + 2) 0 = ([0, 1000], [p0, p1], .ok ()) := by
    show getChainsAux sel (fuel + 1 + 1) 0 = _
    rw [getChainsAux, h0]
    simp only [hl0, maxChains, Nat.lt_irrefl, if_false, Nat.zero_add]
    rw [getChainsAux, h1]
    simp [hl1, maxChains]
  refine ⟨htrace, ?_⟩
  rw [htrace]
  simp [hl0, hl1]

/-- Concrete two-page store for the C5 witness. -/
def twoPageSel : Nat → Nat → DbResult (List chain) := fun _ off =>
  if off = 0 then .ok (List.replicate 1000 ⟨[], 0, []⟩)
  else if off = 1000 then .ok (List.replicate 400 ⟨[], 0, []⟩)
  else .noRows

set_option maxRecDepth 8000 in
/-- C5 witness: the two-page trace at the concrete store, with fuel 2. -/
theorem C5_two_pages_trace_witness :
    getChainsAux twoPageSel 2 0 =
      ([0, 1000], [List.replicate 1000 ⟨[], 0, []⟩,
                   List.replicate 400 ⟨[], 0, []⟩], .ok ()) ∧
    ((getChainsAux twoPageSel 2 0).2.1.map List.length).sum = 1400 :=
  C5_two_pages_trace twoPageSel (List.replicate 1000 ⟨[], 0, []⟩)
    (List.replicate 400 ⟨[], 0, []⟩) 0 rfl (List.length_replicate _ _) rfl
    (List.length_replicate _ _)

/-- The standard base64 alphabet used by Go's `base64.StdEncoding`. -/
def b64Alphabet : List Char :=
  ['A', 'B', 'C', 'D', 'E', 'F', 'G', 'H', 'I', 'J', 'K', 'L', 'M',
   'N', 'O', 'P', 'Q', 'R', 'S', 'T', 'U', 'V', 'W', 'X', 'Y', 'Z',
   'a', 'b', 'c', 'd', 'e', 'f', 'g', 'h', 'i', 'j', 'k', 'l', 'm',
   'n', 'o', 'p', 'q', 'r', 's', 't', 'u', 'v', 'w', 'x', 'y', 'z',
   '0', '1', '2', '3', '4', '5', '6', '7', '8', '9', '+', '/']

/-- Character of a six-bit group. -/
def b64Char (i : Nat) : Char := b64Alphabet.getD i '?'

/-- Position of a character in the base64 alphabet (decoding helper). -/
def b64Index (c : Char) : Nat := b64Alphabet.indexOf c

/-- Go `base64.StdEncoding.EncodeToString` on a byte string, producing the
output characters: three input bytes become four alphabet characters, a
two-byte tail becomes three characters plus `=`, a one-byte tail becomes two
characters plus `==`. -/
def b64EncodeChars : Bytes → List Char
  | b0 :: b1 :: b2 :: rest =>
    b64Char (b0 / 4) :: b64Char (b0 % 4 * 16 + b1 / 16) ::
      b64Char (b1 % 16 * 4 + b2 / 64) :: b64Char (b2 % 64) ::
        b64EncodeChars rest
  | [b0, b1] =>
    [b64Char (b0 / 4), b64Char (b0 % 4 * 16 + b1 / 16), b64Char (b1 % 16 * 4), '=']
  | [b0] => [b64Char (b0 / 4), b64Char (b0 % 4 * 16), '=', '=']
  | [] => []

/-- Standard base64 decoding of a character string (the inverse direction of
`b64EncodeChars`, used to state that the encoded strings determine the input
bytes). -/
def b64DecodeChars : List Char → Bytes
  | c1 :: c2 :: c3 :: c4 :: rest =>
    let s1 := b64Index c1
    let s2 := b64Index c2
    if c3 = '=' then [s1 * 4 + s2 / 16]
    else
      let s3 := b64Index c3
      if c4 = '=' then [s1 * 4 + s2 / 16, s2 % 16 * 16 + s3 / 4]
      else
        (s1 * 4 + s2 / 16) :: (s2 % 16 * 16 + s3 / 4) ::
          (s3 % 4 * 64 + b64Index c4) :: b64DecodeChars rest
  | _ => []

/-- Decoding inverts encoding on each six-bit group. -/
theorem b64Index_b64Char : ∀ s : Nat, s < 64 → b64Index (b64Char s) = s := by
  decide

/-- Alphabet characters are never the padding character. -/
theorem b64Char_ne_pad : ∀ s : Nat, s < 64 → b64Char s ≠ '=' := by
  decide

/-- Standard base64 decoding recovers every byte string whose entries are
bytes. -/
theorem b64_roundtrip :
    ∀ bs : Bytes, (∀ b ∈ bs, b < 256) →
      b64DecodeChars (b64EncodeChars bs) = bs
  | [], _ => rfl
  | [b0], h => by
    have hb0 : b0 < 256 := h b0 (by simp)
    have h1 : b0 / 4 < 64 := by omega
    have h2 : b0 % 4 * 16 < 64 := by omega
    show b64DecodeChars
      [b64Char (b0 / 4), b64Char (b0 % 4 * 16), '=', '='] = [b0]
    simp only [b64DecodeChars, ite_true,
      b64Index_b64Char _ h1, b64Index_b64Char _ h2]
    simp only [List.cons.injEq, and_true]
    omega
  | [b0, b1], h => by
    have hb0 : b0 < 256 := h b0 (by simp)
    have hb1 : b1 < 256 := h b1 (by simp)
    have h1 : b0 / 4 < 64 := by omega
    have h2 : b0 % 4 * 16 + b1 / 16 < 64 := by omega
    have h3 : b1 % 16 * 4 < 64 := by omega
    show b64DecodeChars
      [b64Char (b0 / 4), b64Char (b0 % 4 * 16 + b1 / 16),
       b64Char (b1 % 16 * 4), '='] = [b0, b1]
    simp only [b64DecodeChars, if_neg (b64Char_ne_pad _ h3), ite_true,
      b64Index_b64Char _ h1, b64Index_b64Char _ h2, b64Index_b64Char _ h3]
    simp only [List.cons.injEq, and_true]
    omega
  | b0 :: b1 :: b2 :: rest, h => by
    have hb0 : b0 < 256 := h b0 (by simp)
    have hb1 : b1 < 256 := h b1 (by simp)
    have hb2 : b2 < 256 := h b2 (by simp)
    have ih := b64_roundtrip rest (fun b hb => h b (by simp [hb]))
    have h1 : b0 / 4 < 64 := by omega
    have h2 : b0 % 4 * 16 + b1 / 16 < 64 := by omega
    have h3 : b1 % 16 * 4 + b2 / 64 < 64 := by omega
    have h4 : b2 % 64 < 64 := by omega
    show b64DecodeChars
      (b64Char (b0 / 4) :: b64Char (b0 % 4 * 16 + b1 / 16) ::
        b64Char (b1 % 16 * 4 + b2 / 64) :: b64Char (b2 % 64) ::
          b64EncodeChars rest) = b0 :: b1 :: b2 :: rest
    simp only [b64DecodeChars, if_neg (b64Char_ne_pad _ h3),
      if_neg (b64Char_ne_pad _ h4), b64Index_b64Char _ h1,
      b64Index_b64Char _ h2, b64Index_b64Char _ h3, b64Index_b64Char _ h4]
    have e0 : b0 / 4 * 4 + (b0 % 4 * 16 + b1 / 16) / 16 = b0 := by omega
    have e1 : (b0 % 4 * 16 + b1 / 16) % 16 * 16 +
        (b1 % 16 * 4 + b2 / 64) / 4 = b1 := by omega
    have e2 : (b1 % 16 * 4 + b2 / 64) % 4 * 64 + b2 % 64 = b2 := by omega
    rw [e0, e1, e2, ih]

/-- A JSON string literal for a base64 string.  Go's `encoding/json` escapes
only quote, backslash, control characters and the HTML characters; the base64
alphabet (with padding) contains none of them, so the encoder emits the
characters verbatim between quotes. -/
def quoteJsonString (s : String) : String := "\"" ++ s ++ "\""

/-- Go `json.Marshal` of a `ctSubmission` value (src/main.go lines 173-175,
a struct whose only field is `Chain []string` with JSON name "chain").
The field is built by `append` from a nil slice, so an empty input is the nil
slice, which marshals to JSON `null`; a non-empty slice marshals to a JSON
array of its strings in order.  For this type `json.Marshal` cannot fail, so
the result is always `.ok`. -/
def jsonMarshalCtSubmission (ss : List String) : Except String String :=
  match ss with
  | [] => .ok "\x7b\"chain\":null\x7d"
  | _ =>
    .ok ("\x7b\"chain\":[" ++ String.intercalate "," (ss.map quoteJsonString)
      ++ "]\x7d")

/-- `certsToSub` (src/main.go lines 177-187): base64-encode every certificate
in order, marshal the `ctSubmission` struct, and `panic(err)` (modelled as the
`.error` case) if marshalling fails. -/
def certsToSub (certs : List Bytes) : Except String String :=
  match jsonMarshalCtSubmission
      (certs.map (fun c => String.mk (b64EncodeChars c))) with
  | .error e => .error ("panic: " ++ e)
  | .ok j => .ok j

/-- C10: `certsToSub` is total — for every list of certificates (the empty
list included) the marshalling succeeds, so the panic branch is unreachable,
and the marshalled submission carries exactly one standard-base64 string per
input certificate in input order: the output is the `chain` object over
`certs.map base64`, and decoding those strings in order recovers exactly the
input certificates. -/
theorem C10_certsToSub_total (certs : List Bytes)
    (h : ∀ c ∈ certs, ∀ b ∈ c, b < 256) :
    certsToSub certs =
      .ok ((jsonMarshalCtSubmission
        (certs.map (fun c => String.mk (b64EncodeChars c)))).toOption.getD "") ∧
    certs.map (fun c =>
      b64DecodeChars (String.mk (b64EncodeChars c)).toList) = certs := by
  constructor
  · cases certs with
    | nil => rfl
    | cons c cs => rfl
  · induction certs with
    | nil => rfl
    | cons c cs ih =>
      have hc : b64DecodeChars (b64EncodeChars c) = c :=
        b64_roundtrip c (h c (by simp))
      have ih' := ih (fun d hd b hb => h d (by simp [hd]) b hb)
      simpa [String.toList, hc] using ih'

/-- C10 witness: the statement at the concrete certificate list
`[[77, 97], [0], []]`. -/
theorem C10_certsToSub_total_witness :
    certsToSub [[77, 97], [0], []] =
      .ok ((jsonMarshalCtSubmission
        ([[77, 97], [0], []].map
          (fun c => String.mk (b64EncodeChars c)))).toOption.getD "") ∧
    [[77, 97], [0], []].map (fun c =>
      b64DecodeChars (String.mk (b64EncodeChars c)).toList) =
        [[77, 97], [0], []] :=
  C10_certsToSub_total [[77, 97], [0], []] (by decide)

/-- The fixed log-ingestion URL (src/main.go line 28). -/
def logAddr : String := "https://ct.googleapis.com/rocketeer/ct/v1/add-chain"

/-- An `http.Response`, reduced to the fields `submit` reads: the status code
and the body.  `body = none` models a nil `Body` (the zero value, as in
`dryClient.Post`'s response literal); a present body is either readable
content (`.ok`) or a body whose read fails (`.error`). -/
structure Response where
  statusCode : Nat
  body : Option (Except String String)

/-- The `ctResponse` struct (src/main.go lines 112-114): the log's reported
timestamp, a Go `int64`. -/
structure ctResponse where
  Timestamp : Int
deriving DecidableEq

/-- The shared progress globals (src/main.go lines 31-34): last submitted
chain id, number of submissions, number of "new" submissions. -/
structure ProgressState where
  lastSubmittedChain : Int
  numSubmitted : Int
  numNewSubmitted : Int
deriving DecidableEq

/-- Outcome of one `submit` call: a Go `nil` return with the globals updated,
a returned error, or a runtime panic. -/
inductive SubmitResult where
  | success (st : ProgressState)
  | failure (msg : String)
  | panicked (msg : String)

/-- Go's nil-pointer runtime error, raised when `resp.Body` is the nil
interface and `submit` evaluates `resp.Body.Close` / reads it. -/
def nilBodyMsg : String :=
  "runtime error: invalid memory address or nil pointer dereference"

/-- Text obtained by `ioutil.ReadAll` in the non-200 branch (src/main.go
lines 123-128): on a read error the partial bytes (modelled empty) are used,
because `bodyStr = string(body)` overwrites the error text unconditionally. -/
def readAllText : Except String String → String
  | .error _ => ""
  | .ok s => s

/-- `submit` (src/main.go lines 116-146).  The HTTP client's `Post` and
`json.Unmarshal` into `ctResponse` are oracles; `now` is
`time.Now().UTC().UnixNano()`.  Steps, in source order: post the marshalled
chain (a `Post` error is returned); `defer resp.Body.Close()` panics when the
body is the nil interface; a non-200 status returns the body-text error; the
body is read and unmarshalled (errors returned); if the timestamp exceeds
`(now - time.Hour).UnixNano() / 1000` (Go `int64` division, `Int.tdiv`),
`numNewSubmitted` is incremented; finally `lastSubmittedChain` is overwritten
with the chain's id and `numSubmitted` is incremented. -/
def submit (post : String → String → String → Except String Response)
    (unmarshal : String → Except String ctResponse)
    (now : Int) (submission : chain) (st : ProgressState) : SubmitResult :=
  match certsToSub submission.certs with
  | .error e => .panicked e
  | .ok reqBody =>
    match post logAddr "encoding/json" reqBody with
    | .error e => .failure e
    | .ok resp =>
      match resp.body with
      | none => .panicked nilBodyMsg
      | some bodyRead =>
        if resp.statusCode ≠ 200 then
          .failure ("non-200 status code, body: " ++ readAllText bodyRead)
        else
          match bodyRead with
          | .error e => .failure e
          | .ok b =>
            match unmarshal b with
            | .error e => .failure e
            | .ok ctr =>
              let st1 :=
                if (now - 3600 * 1000000000).tdiv 1000 < ctr.Timestamp
                then { st with numNewSubmitted := st.numNewSubmitted + 1 }
                else st
              .success { st1 with
                lastSubmittedChain := submission.id,
                numSubmitted := st1.numSubmitted + 1 }

/-- `dryClient.Post` (src/main.go lines 105-110): after the artificial delay
it returns `&http.Response{StatusCode: http.StatusOK}` — status 200 and a nil
(zero-value) `Body` — and a nil error, without contacting the network. -/
def dryClientPost : String → String → String → Except String Response :=
  fun _ _ _ => .ok { statusCode := 200, body := none }

/-- C2 (code bug): in dry-run mode `submit` never reports success — for every
assembled chain it panics.  The dry client's response has a nil `Body`, so
`submit` dereferences a nil interface (`resp.Body.Close` / `ReadAll`); the
progress counters are never touched, so `numSubmitted` stays short of the
number of processed chains instead of reaching it. -/
theorem C2_dry_run_submit_panics
    (unmarshal : String → Except String ctResponse) (now : Int)
    (submission : chain) (st : ProgressState) :
    submit dryClientPost unmarshal now submission st = .panicked nilBodyMsg := by
  unfold submit
  cases hc : certsToSub submission.certs with
  | error e =>
    exact absurd hc (by cases submission.certs <;> simp [certsToSub, jsonMarshalCtSubmission])
  | ok b => rfl

/-- The worker's plain overwrite of the shared `lastSubmittedChain`
(src/main.go lines 143 and 164: `atomic.StoreInt64(&lastSubmittedChain, submission.ID)`). -/
def storeLastSubmitted (st : ProgressState) (i : Int) : ProgressState :=
  { st with lastSubmittedChain := i }

/-- Final state of one worker run: the loop finished with the globals in the
given state, or a panic escaped the goroutine. -/
inductive WorkerOutcome where
  | finished (st : ProgressState)
  | crashed (msg : String)

/-- One worker of `submitChains` (src/main.go lines 158-167), processing the
submissions it receives in completion order: call `submit`; on error
`continue`; on success store the chain's id into `lastSubmittedChain` again
(plain overwrite).  A sequential run over the list of submissions is one
admissible interleaving of the pool (and the exact semantics for a single
worker). -/
def workerLoop (post : String → String → String → Except String Response)
    (unmarshal : String → Except String ctResponse) (now : Int) :
    List chain → ProgressState → WorkerOutcome
  | [], st => .finished st
  | sub :: rest, st =>
    match submit post unmarshal now sub st with
    | .success st' =>
      workerLoop post unmarshal now rest (storeLastSubmitted st' sub.id)
    | .failure _ => workerLoop post unmarshal now rest st
    | .panicked m => .crashed m

/-- Projection: the final `lastSubmittedChain` of a finished worker run. -/
def finishedLast : WorkerOutcome → Option Int
  | .finished st => some st.lastSubmittedChain
  | .crashed _ => none

/-- A live client whose POST always succeeds with status 200 and a readable
body (an ideal sink, every submission successful). -/
def okPost : String → String → String → Except String Response :=
  fun _ _ _ => .ok { statusCode := 200, body := some (.ok "resp") }

/-- An unmarshal oracle that always parses to the given timestamp. -/
def okUnmarshal (ts : Int) : String → Except String ctResponse :=
  fun _ => .ok ⟨ts⟩

/-- The marshalled submission body for a certificate list. -/
def marshalledChain (certs : List Bytes) : String :=
  (jsonMarshalCtSubmission
    (certs.map (fun c => String.mk (b64EncodeChars c)))).toOption.getD ""

/-- `certsToSub` always succeeds with the marshalled body (the panic branch
is unreachable for this type). -/
theorem certsToSub_eq_ok (certs : List Bytes) :
    certsToSub certs = .ok (marshalledChain certs) := by
  cases certs <;> rfl

/-- C8: for a successful submission (POST succeeded with status 200, body
read and unmarshalled to the timestamp `ctr.Timestamp`), `submit` increments
`numNewSubmitted` exactly when the log-reported timestamp is strictly later
than the current time minus one hour, both expressed in the same unit
(microseconds: `now.tdiv 1000` against one hour = 3600e6 µs); independently
it overwrites `lastSubmittedChain` and increments `numSubmitted`. -/
theorem C8_newCount_iff_last_hour
    (post : String → String → String → Except String Response)
    (unmarshal : String → Except String ctResponse)
    (now : Int) (submission : chain) (st : ProgressState)
    (resp : Response) (bodyStr : String) (ctr : ctResponse)
    (hpost : post logAddr "encoding/json" (marshalledChain submission.certs)
      = .ok resp)
    (hbody : resp.body = some (.ok bodyStr))
    (hstatus : resp.statusCode = 200)
    (hparse : unmarshal bodyStr = .ok ctr)
    (hnow : 3600 * 1000000000 ≤ now) :
    submit post unmarshal now submission st = .success
      { lastSubmittedChain := submission.id,
        numSubmitted := st.numSubmitted + 1,
        numNewSubmitted := st.numNewSubmitted +
          (if now.tdiv 1000 - 3600 * 1000000 < ctr.Timestamp
           then 1 else 0) } := by
  have hcut : (now - 3600 * 1000000000).tdiv 1000 =
      now.tdiv 1000 - 3600 * 1000000 := by
    have h1 : (0 : Int) ≤ now - 3600 * 1000000000 := by omega
    have h2 : (0 : Int) ≤ now := by omega
    rw [Int.tdiv_eq_ediv h1 (by norm_num), Int.tdiv_eq_ediv h2 (by norm_num)]
    omega
  simp only [submit, certsToSub_eq_ok, hpost, hbody, hstatus, hparse, hcut]
  norm_num
  split <;> simp

/-- Concrete 200-response client for the C8 witness. -/
def post8 : String → String → String → Except String Response :=
  fun _ _ _ => .ok { statusCode := 200, body := some (.ok "ts") }

/-- Concrete unmarshal oracle for the C8 witness: timestamp 7200e6. -/
def unmarshal8 : String → Except String ctResponse := fun _ => .ok ⟨7200000000⟩

/-- C8 witness: at `now` = 7200e9 ns the cutoff is 3600e6 µs; the reported
timestamp 7200e6 exceeds it, so `numNewSubmitted` is incremented. -/
theorem C8_newCount_iff_last_hour_witness :
    submit post8 unmarshal8 7200000000000 ⟨[], 5, []⟩ ⟨0, 0, 0⟩ = .success
      { lastSubmittedChain := 5,
        numSubmitted := (0 : Int) + 1,
        numNewSubmitted := (0 : Int) +
          (if (7200000000000 : Int).tdiv 1000 - 3600 * 1000000 <
              (ctResponse.mk 7200000000).Timestamp
           then 1 else 0) } :=
  C8_newCount_iff_last_hour post8 unmarshal8 7200000000000 ⟨[], 5, []⟩
    ⟨0, 0, 0⟩ { statusCode := 200, body := some (.ok "ts") } "ts"
    ⟨7200000000⟩ rfl rfl rfl rfl (by norm_num)

/-- Under `okPost`, one `submit` call succeeds and performs the plain updates:
overwrite `lastSubmittedChain` with the chain's id, increment `numSubmitted`,
and increment `numNewSubmitted` when the fixed timestamp passes the cutoff. -/
theorem submit_okPost_eq (ts now : Int) (sub : chain) (st : ProgressState) :
    submit okPost (okUnmarshal ts) now sub st = .success
      { lastSubmittedChain := sub.id,
        numSubmitted := st.numSubmitted + 1,
        numNewSubmitted := st.numNewSubmitted +
          (if (now - 3600 * 1000000000).tdiv 1000 < ts then 1 else 0) } := by
  simp only [submit, certsToSub_eq_ok, okPost, okUnmarshal]
  norm_num
  split <;> simp

/-- C1 counterexample: `lastSubmittedChain` is updated by plain overwrite,
not by a max-merge.  In the completion order where the chain with sequence id
2 finishes before the chain with sequence id 1 (every submission successful),
the final `lastSubmittedChain` is 1, not the maximum 2 of the successfully
submitted ids. -/
theorem C1_lastSubmitted_not_max_cex :
    finishedLast (workerLoop okPost (okUnmarshal 0) 3600000000000
      [⟨[], 2, []⟩, ⟨[], 1, []⟩] ⟨0, 0, 0⟩) = some 1 ∧
    max (2 : Int) 1 = 2 ∧ (1 : Int) ≠ 2 := by
  exact ⟨by decide, by decide, by decide⟩

/-- C1 (amended): each successful submission plainly overwrites
`lastSubmittedChain` with its chain's sequence id, so after a worker processes
all chains (every submission successful) the final value is the id of the
LAST chain in completion order — equal to the maximum only when the maximal
chain happens to complete last; `numSubmitted` does count every chain. -/
theorem C1_lastSubmitted_plain_overwrite (ts now : Int) (subs : List chain)
    (st : ProgressState) :
    ∃ st', workerLoop okPost (okUnmarshal ts) now subs st = .finished st' ∧
      st'.lastSubmittedChain =
        (subs.map (fun c => c.id)).getLastD st.lastSubmittedChain ∧
      st'.numSubmitted = st.numSubmitted + subs.length := by
  induction subs generalizing st with
  | nil => exact ⟨st, rfl, by simp, by simp⟩
  | cons sub rest ih =>
    obtain ⟨st', h1, h2, h3⟩ := ih (storeLastSubmitted
      { lastSubmittedChain := sub.id,
        numSubmitted := st.numSubmitted + 1,
        numNewSubmitted := st.numNewSubmitted +
          (if (now - 3600 * 1000000000).tdiv 1000 < ts then 1 else 0) } sub.id)
    refine ⟨st', ?_, ?_, ?_⟩
    · simp only [workerLoop, submit_okPost_eq]
      exact h1
    · rw [h2, List.map_cons, List.getLastD_cons]
      rfl
    · rw [h3]
      simp only [storeLastSubmitted, List.length_cons]
      push_cast
      omega

/-- The rate computation of one `printStats` tick (src/main.go line 194):
`rate = float64(num-lastNumSubmitted) / 30.0`, a division by the fixed
constant 30, modelled exactly over ℚ (both operands are integers, so no
floating-point rounding is involved in the counterexample values). -/
def printStatsRate (lastNumSubmitted num : Int) : ℚ :=
  ((num : ℚ) - (lastNumSubmitted : ℚ)) / 30

/-- The default stats interval (src/main.go line 40:
`statPeriod = flag.Duration("statsInterval", time.Second*15, "")`), in
seconds. -/
def statPeriodDefaultSeconds : ℚ := 15

/-- C9 counterexample: with the default 15-second interval and 30 submissions
since the previous tick, the reported rate is 30/30 = 1/s while the claimed
rate delta/elapsed is 30/15 = 2/s. -/
theorem C9_rate_divisor_cex :
    printStatsRate 0 30 = 1 ∧
    ((30 : ℚ) - 0) / statPeriodDefaultSeconds = 2 ∧
    printStatsRate 0 30 ≠ ((30 : ℚ) - 0) / statPeriodDefaultSeconds := by
  refine ⟨?_, ?_, ?_⟩ <;> norm_num [printStatsRate, statPeriodDefaultSeconds]

/-- C9 (amended): every tick divides the submission delta by the fixed
constant 30 seconds, whatever the configured interval; the reported rate
coincides with delta divided by the elapsed interval exactly when the
interval is 30 seconds or the delta is zero. -/
theorem C9_rate_fixed_30_divisor (lastNum num : Int) (intervalSeconds : ℚ) :
    printStatsRate lastNum num =
        ((num : ℚ) - (lastNum : ℚ)) / intervalSeconds ↔
      (intervalSeconds = 30 ∨ num = lastNum) := by
  unfold printStatsRate
  constructor
  · intro h
    by_cases hd : (num : ℚ) - (lastNum : ℚ) = 0
    · right
      have : (num : ℚ) = (lastNum : ℚ) := by linarith
      exact_mod_cast this
    · left
      by_cases hi : intervalSeconds = 0
      · rw [hi, div_zero] at h
        exact absurd (by
          have h30 : (30 : ℚ) ≠ 0 := by norm_num
          exact (div_eq_zero_iff.mp h).resolve_right h30) hd
      · have h30 : (30 : ℚ) ≠ 0 := by norm_num
        rw [div_eq_div_iff h30 hi] at h
        have := mul_left_cancel₀ hd h
        linarith
  · rintro (h | h)
    · rw [h]
    · have hd : (num : ℚ) - (lastNum : ℚ) = 0 := by
        have : (num : ℚ) = (lastNum : ℚ) := by exact_mod_cast h
        linarith
      rw [hd, zero_div, zero_div]

/-- C9 witness for the amended statement: at interval 30 the two formulas
agree. -/
theorem C9_rate_fixed_30_divisor_witness :
    printStatsRate 10 40 = (((40 : Int) : ℚ) - ((10 : Int) : ℚ)) / 30 ↔
      ((30 : ℚ) = 30 ∨ (40 : Int) = 10) :=
  C9_rate_fixed_30_divisor 10 40 30

/-- Where a fatal error (a Go `panic`) is raised, relative to the goroutine
structure of `main` (src/main.go lines 236-251): `getChains` errors panic
inside the chain-source goroutine, submission-side panics happen inside a
worker goroutine, and `mainGoroutine` stands for a panic unwinding `main`
itself (the goroutine whose `defer` at lines 220-231 is registered). -/
inductive FatalSite where
  | chainSourceGoroutine
  | workerGoroutine
  | mainGoroutine
deriving DecidableEq

/-- An exit path of the process: natural completion, or the first fatal
error at the given site. -/
inductive ExitPath where
  | normalCompletion
  | fatal (site : FatalSite)
deriving DecidableEq

/-- What the process reports on exit: whether the deferred final line
`# [Last submitted chain ID: ...]` was printed, and whether the outcome is
non-zero. -/
structure ExitReport where
  printsLastSubmitted : Bool
  nonZeroExit : Bool
deriving DecidableEq

/-- The exit behaviour of `main` (src/main.go lines 220-231): the deferred
function — which prints `lastSubmittedChain` and, after a recovered panic,
exits with status 1 — runs when `main` returns normally and when a panic
unwinds the main goroutine.  A panic raised in any OTHER goroutine (the
chain-source goroutine of lines 236-242 or a worker goroutine) terminates
the process directly with the runtime's non-zero status, without running
`main`'s deferred function. -/
def mainExit : ExitPath → ExitReport
  | .normalCompletion => { printsLastSubmitted := true, nonZeroExit := false }
  | .fatal .mainGoroutine => { printsLastSubmitted := true, nonZeroExit := true }
  | .fatal .chainSourceGoroutine =>
    { printsLastSubmitted := false, nonZeroExit := true }
  | .fatal .workerGoroutine =>
    { printsLastSubmitted := false, nonZeroExit := true }

/-- Classifier: normal completion. -/
def isNormal : ExitPath → Bool
  | .normalCompletion => true
  | _ => false

/-- Classifier: fatal error raised in the main goroutine itself. -/
def isMainFatal : ExitPath → Bool
  | .fatal .mainGoroutine => true
  | _ => false

/-- C7 counterexample: a fatal error from the ChainSource (a `panic(err)`
inside the `getChains` goroutine) terminates the process with a non-zero
outcome but WITHOUT printing the final `lastSubmittedChain` line — `main`'s
deferred recording does not run for panics in other goroutines. -/
theorem C7_source_fatal_skips_recording_cex :
    (mainExit (.fatal .chainSourceGoroutine)).printsLastSubmitted = false ∧
    (mainExit (.fatal .chainSourceGoroutine)).nonZeroExit = true := by
  exact ⟨rfl, rfl⟩

/-- C7 (amended): the final `lastSubmittedChain` line is printed exactly on
normal completion and on fatal errors raised in the main goroutine; fatal
errors raised in the ChainSource or worker goroutines skip the recording.
Every exit path other than normal completion yields a non-zero outcome. -/
theorem C7_recording_exit_paths (p : ExitPath) :
    (mainExit p).printsLastSubmitted = (isNormal p || isMainFatal p) ∧
    (mainExit p).nonZeroExit = !isNormal p := by
  cases p with
  | normalCompletion => exact ⟨rfl, rfl⟩
  | fatal s => cases s <;> exact ⟨rfl, rfl⟩

end DsoToCt
